import Mathlib

/-!
Verification of the `@xscale/hash` password-hash adapter layer.

Shallow embedding conventions:
* JS strings are modelled as `List Char` (a JS string is a sequence of
  code points; every character handled here lies in the BMP, where
  `codePointAt` visits one list element at a time).
* Byte sequences (`Buffer`/`Uint8Array`) are modelled as `List Nat`, each
  element the byte value.
* Functions that can throw are modelled in `Except String`; the catch-all
  blocks of the drivers map `.error` to their fallback result.
* The external collaborators (Node's `scrypt`, the `bcrypt` binding) are
  modelled as oracle parameters, plus the documented failure behaviour of
  the Node primitive where it is observable.
-/

/-! ## helpers.ts -/

def maxUint32 : Nat := 2 ^ 32 - 1

/-- `rangeValidator(label, value, [min, max])` from helpers.ts. The `value`
is `Option Nat`: `none` models a JS `undefined` (or other non-integer),
which makes the validator throw a `TypeError` before the range is looked
at. -/
def rangeValidator (label : String) (value : Option Nat) (range : Nat × Nat) :
    Except String Unit :=
  match value with
  | none => .error ("TypeError: The " ++ label ++ " option must be an integer")
  | some v =>
    if v < range.1 ∨ v > range.2 then
      .error ("TypeError: The " ++ label ++ " option is out of range")
    else
      .ok ()

/-- `enumValidator(label, value, allowedValues)` from helpers.ts. -/
def enumValidator (label : String) (value : Option Nat) (allowedValues : List Nat) :
    Except String Unit :=
  match value with
  | none => .error ("TypeError: The " ++ label ++ " option must be one of the allowed values")
  | some v =>
    if allowedValues.contains v then
      .ok ()
    else
      .error ("TypeError: The " ++ label ++ " option must be one of the allowed values")

/-- Node's `crypto.timingSafeEqual(a, b)`: throws a `RangeError` when the two
buffers differ in byte length, otherwise reports byte equality (the
constant-time aspect is a timing property with no functional content). -/
def timingSafeEqual (a b : List Nat) : Except String Bool :=
  if a.length = b.length then
    .ok (a == b)
  else
    .error "RangeError: Input buffers must have the same byte length"

/-- The byte sequence of the UTF-8 encoding of a string
(`Buffer.byteLength(s)` is its length), character by character via the
standard UTF-8 encoder. -/
def utf8Bytes (s : String) : List Nat :=
  (s.data.flatMap String.utf8EncodeChar).map (fun b => b.toNat)

/-- `Buffer.alloc(size, 0)` followed by `buffer.write(string)`: the first
`size` bytes of the string's UTF-8 encoding, zero-padded to `size`.
(`Buffer.write` truncates at the buffer's end; it refuses to split a
multi-byte character, which can only matter when the input is longer than
the buffer — a case whose buffer content never reaches the caller's result
because the separate length check already fails.) -/
def bufferWrite (size : Nat) (bytes : List Nat) : List Nat :=
  bytes.take size ++ List.replicate (size - bytes.length) 0

/-- The string/string branch of `safeEqual` from helpers.ts: pad both
strings into buffers of the trusted value's byte length, compare with
`timingSafeEqual`, and require the user input's true byte length to equal
the trusted length. -/
def safeEqualStrings (trustedValue userInput : String) : Except String Bool := do
  let trustedLength := (utf8Bytes trustedValue).length
  let trustedValueBuffer := bufferWrite trustedLength (utf8Bytes trustedValue)
  let userValueBuffer := bufferWrite trustedLength (utf8Bytes userInput)
  let buffersEqual ← timingSafeEqual trustedValueBuffer userValueBuffer
  pure (buffersEqual && (trustedLength == (utf8Bytes userInput).length))

/-- The non-string branch of `safeEqual` from helpers.ts: a direct
`timingSafeEqual` on the two byte sequences, with no length guard of its
own. -/
def safeEqualBytes (trustedValue userInput : List Nat) : Except String Bool :=
  timingSafeEqual trustedValue userInput

/-- `true` exactly on `.error` — "this call throws". -/
def isError {α : Type} (x : Except String α) : Bool :=
  match x with
  | .error _ => true
  | .ok _ => false

/-! ## bcrypt-base64.ts -/

/-- bcrypt's own non-standard base64 dictionary. -/
def base64Code : List Char :=
  "./ABCDEFGHIJKLMNOPQRSTUVWXYZabcdefghijklmnopqrstuvwxyz0123456789".toList

/-- The 128-entry lookup table mapping character code to 6-bit value, `-1`
for invalid symbols. -/
def base64Index : List Int :=
  [-1, -1, -1, -1, -1, -1, -1, -1, -1, -1, -1, -1, -1, -1, -1, -1, -1, -1, -1, -1, -1, -1, -1, -1,
   -1, -1, -1, -1, -1, -1, -1, -1, -1, -1, -1, -1, -1, -1, -1, -1, -1, -1, -1, -1, -1, -1, 0, 1, 54,
   55, 56, 57, 58, 59, 60, 61, 62, 63, -1, -1, -1, -1, -1, -1, -1, 2, 3, 4, 5, 6, 7, 8, 9, 10, 11,
   12, 13, 14, 15, 16, 17, 18, 19, 20, 21, 22, 23, 24, 25, 26, 27, -1, -1, -1, -1, -1, -1, 28, 29,
   30, 31, 32, 33, 34, 35, 36, 37, 38, 39, 40, 41, 42, 43, 44, 45, 46, 47, 48, 49, 50, 51, 52, 53,
   -1, -1, -1, -1, -1]

/-- `base64Code[i]` (indices produced by `encode` are always `< 64`). -/
def bcryptSym (i : Nat) : Char :=
  base64Code.getD i '.'

/-- `encode` from bcrypt-base64.ts: packs bytes 3-at-a-time into 4 symbols
of the bcrypt alphabet, with a shorter final group for a trailing 1 or 2
bytes. -/
def bcryptB64Encode : List Nat → List Char
  | [] => []
  | [b1] =>
    let c1 := b1 &&& 0xff
    [bcryptSym ((c1 >>> 2) &&& 0x3f),
     bcryptSym (((c1 &&& 0x03) <<< 4) &&& 0x3f)]
  | [b1, b2] =>
    let c1 := b1 &&& 0xff
    let c2 := b2 &&& 0xff
    [bcryptSym ((c1 >>> 2) &&& 0x3f),
     bcryptSym ((((c1 &&& 0x03) <<< 4) ||| ((c2 >>> 4) &&& 0x0f)) &&& 0x3f),
     bcryptSym (((c2 &&& 0x0f) <<< 2) &&& 0x3f)]
  | b1 :: b2 :: b3 :: rest =>
    let c1 := b1 &&& 0xff
    let c2 := b2 &&& 0xff
    let c3 := b3 &&& 0xff
    [bcryptSym ((c1 >>> 2) &&& 0x3f),
     bcryptSym ((((c1 &&& 0x03) <<< 4) ||| ((c2 >>> 4) &&& 0x0f)) &&& 0x3f),
     bcryptSym ((((c2 &&& 0x0f) <<< 2) ||| ((c3 >>> 6) &&& 0x03)) &&& 0x3f),
     bcryptSym (c3 &&& 0x3f)] ++ bcryptB64Encode rest

/-- The `code < base64Index.length ? base64Index[code] : -1` lookup of
`decode`. -/
def char64 (c : Char) : Int :=
  if c.toNat < base64Index.length then base64Index.getD c.toNat (-1) else -1

/-- The JS `o |= c4` of `decode`: two's-complement bitwise OR of the
non-negative accumulator with a table value. Written by cases on the sign
so that it evaluates (`Nat.ldiff n o` is spelled as the equivalent
`n ^^^ (n &&& o)`); `jsOr32_eq_lor` below proves it equal to the textbook
`Int.lor`. -/
def jsOr32 (o : Nat) (c : Int) : Int :=
  match c with
  | .ofNat n => .ofNat (o ||| n)
  | .negSucc n => .negSucc (n ^^^ (n &&& o))

/-- The main loop of `decode` from bcrypt-base64.ts. `len` is the input
string's length (the source reads it twice, as `stringLength` and
`length`; the loop runs `while (off < stringLength - 1 && olen < length)`).
The loop body is laid out here by the number of characters it still has:
fewer than two exits the loop, and with two or three remaining every
post-push `if (++olen >= length || off >= stringLength) break` after the
final readable symbol breaks with the same output on both of its
disjuncts, so those cases return directly after their last push.
A `codePointAt` result that is `undefined` (past the end) or `0` (NUL)
breaks out of the loop, as does a `-1` table entry for the first three
symbols of a group; the fourth symbol's table entry is OR-ed in unchecked,
so a `-1` there drives the code point negative and
`String.fromCodePoint` throws a `RangeError`. -/
def bcryptB64DecodeCore (len : Nat) : List Char → Nat → List Nat → Except String (List Nat)
  | [], _, acc => .ok acc
  | [_], _, acc => .ok acc
  | [c1ch, c2ch], olen, acc =>
    if olen < len then
      if c1ch.toNat = 0 then .ok acc else
      let c1 := char64 c1ch
      if c2ch.toNat = 0 then .ok acc else
      let c2 := char64 c2ch
      if c1 = -1 ∨ c2 = -1 then .ok acc else
      let o1 : Nat := (c1.toNat <<< 2) ||| ((c2.toNat &&& 0x30) >>> 4)
      .ok (acc ++ [o1])
    else .ok acc
  | [c1ch, c2ch, c3ch], olen, acc =>
    if olen < len then
      if c1ch.toNat = 0 then .ok acc else
      let c1 := char64 c1ch
      if c2ch.toNat = 0 then .ok acc else
      let c2 := char64 c2ch
      if c1 = -1 ∨ c2 = -1 then .ok acc else
      let o1 : Nat := (c1.toNat <<< 2) ||| ((c2.toNat &&& 0x30) >>> 4)
      if olen + 1 ≥ len then .ok (acc ++ [o1]) else
      if c3ch.toNat = 0 then .ok (acc ++ [o1]) else
      let c3 := char64 c3ch
      if c3 = -1 then .ok (acc ++ [o1]) else
      let o2 : Nat := ((c2.toNat &&& 0x0f) <<< 4) ||| ((c3.toNat &&& 0x3c) >>> 2)
      .ok (acc ++ [o1, o2])
    else .ok acc
  | c1ch :: c2ch :: c3ch :: c4ch :: rest3, olen, acc =>
    if olen < len then
      if c1ch.toNat = 0 then .ok acc else
      let c1 := char64 c1ch
      if c2ch.toNat = 0 then .ok acc else
      let c2 := char64 c2ch
      if c1 = -1 ∨ c2 = -1 then .ok acc else
      let o1 : Nat := (c1.toNat <<< 2) ||| ((c2.toNat &&& 0x30) >>> 4)
      if olen + 1 ≥ len then .ok (acc ++ [o1]) else
      if c3ch.toNat = 0 then .ok (acc ++ [o1]) else
      let c3 := char64 c3ch
      if c3 = -1 then .ok (acc ++ [o1]) else
      let o2 : Nat := ((c2.toNat &&& 0x0f) <<< 4) ||| ((c3.toNat &&& 0x3c) >>> 2)
      if olen + 2 ≥ len then .ok (acc ++ [o1, o2]) else
      if c4ch.toNat = 0 then .ok (acc ++ [o1, o2]) else
      let c4 := char64 c4ch
      let o3 : Int := jsOr32 ((c3.toNat &&& 0x03) <<< 6) c4
      if o3 < 0 then .error "RangeError: Invalid code point" else
      bcryptB64DecodeCore len rest3 (olen + 3) (acc ++ [o1, o2, o3.toNat])
    else .ok acc

/-- `decode` from bcrypt-base64.ts. The trailing `Buffer.from(bufferArray)`
conversion collects the code points already pushed, in order, so it is the
identity on the accumulated byte list. -/
def bcryptB64Decode (s : List Char) : Except String (List Nat) :=
  bcryptB64DecodeCore s.length s 0 []

/-! ## The PHC formatter (`@xscale/phc-formatter`) -/

/-- `List.splitOn` for a single separator character, mirroring JS
`string.split(sep)` for a one-character separator. -/
def splitOnChar (sep : Char) : List Char → List (List Char)
  | [] => [[]]
  | c :: cs =>
    if c = sep then
      [] :: splitOnChar sep cs
    else
      match splitOnChar sep cs with
      | [] => [[c]]
      | l :: ls => (c :: l) :: ls

/-- A character allowed in a PHC identifier or parameter key
(short lowercase names, digits, and dashes). -/
def validIdChar (c : Char) : Bool :=
  c.isLower || c.isDigit || c = '-'

/-- Parse a decimal non-negative integer: digits only, no leading zeros
beyond the literal "0". -/
def parseNat? (cs : List Char) : Option Nat :=
  if cs ≠ [] ∧ cs.all Char.isDigit ∧ (cs.head? = some '0' → cs = ['0']) then
    some (cs.foldl (fun acc c => 10 * acc + (c.toNat - 48)) 0)
  else
    none

/-- 6-bit value of a standard (PHC) base64 symbol, `+/` alphabet. -/
def stdB64Val (c : Char) : Option Nat :=
  if 'A' ≤ c ∧ c ≤ 'Z' then some (c.toNat - 65)
  else if 'a' ≤ c ∧ c ≤ 'z' then some (c.toNat - 97 + 26)
  else if '0' ≤ c ∧ c ≤ '9' then some (c.toNat - 48 + 52)
  else if c = '+' then some 62
  else if c = '/' then some 63
  else none

/-- Unpadded standard base64 decoding: 4 symbols to 3 bytes, with a final
group of 2 or 3 symbols for a trailing 1 or 2 bytes; a lone trailing
symbol or any invalid symbol fails. -/
def stdB64Decode : List Char → Option (List Nat)
  | [] => some []
  | [_] => none
  | [a, b] => do
    let va ← stdB64Val a
    let vb ← stdB64Val b
    pure [(va <<< 2) ||| (vb >>> 4)]
  | [a, b, c] => do
    let va ← stdB64Val a
    let vb ← stdB64Val b
    let vc ← stdB64Val c
    pure [(va <<< 2) ||| (vb >>> 4), ((vb &&& 0x0f) <<< 4) ||| (vc >>> 2)]
  | a :: b :: c :: d :: rest => do
    let va ← stdB64Val a
    let vb ← stdB64Val b
    let vc ← stdB64Val c
    let vd ← stdB64Val d
    let tail ← stdB64Decode rest
    pure ([(va <<< 2) ||| (vb >>> 4), ((vb &&& 0x0f) <<< 4) ||| (vc >>> 2),
           ((vc &&& 0x03) <<< 6) ||| vd] ++ tail)

/-- The structured PHC record (the data model of section 3 of the spec):
optional fields stay absent when their segment is absent. -/
structure PhcNode where
  id : List Char
  version : Option Nat
  parameters : Option (List (List Char × Nat))
  salt : Option (List Nat)
  hash : Option (List Nat)
deriving Repr, DecidableEq

/-- Modelled from the spec: optional `$v=<version>` segment of the PHC
grammar. A segment starting `v=` must carry a well-formed integer or the
whole decode fails. -/
def parseVersionSeg : List (List Char) → Except String (Option Nat × List (List Char))
  | [] => .ok (none, [])
  | seg :: t =>
    if "v=".toList.isPrefixOf seg then
      match parseNat? (seg.drop 2) with
      | some v => .ok (some v, t)
      | none => .error "DecodingError: invalid version segment"
    else .ok (none, seg :: t)

/-- Modelled from the spec: one `key=value` entry of the parameters
segment; the value is a non-negative integer. -/
def parseParamEntry (entry : List Char) : Option (List Char × Nat) :=
  match splitOnChar '=' entry with
  | [k, v] =>
    if k ≠ [] ∧ k.all validIdChar then
      (parseNat? v).map (fun n => (k, n))
    else none
  | _ => none

/-- Modelled from the spec: optional parameters segment, recognized by
containing `=`; comma-separated `key=integer` entries with unique keys.
A recognized segment that does not fully parse fails the decode. -/
def parseParamsSeg : List (List Char) → Except String (Option (List (List Char × Nat)) × List (List Char))
  | [] => .ok (none, [])
  | seg :: t =>
    if seg.contains '=' then
      match (splitOnChar ',' seg).mapM parseParamEntry with
      | some ps =>
        if (ps.map Prod.fst).Nodup then .ok (some ps, t)
        else .error "DecodingError: duplicate parameter keys"
      | none => .error "DecodingError: invalid parameters segment"
    else .ok (none, seg :: t)

/-- Modelled from the spec: a salt or hash segment, base64 in the `+/`
unpadded alphabet; a present segment that is not valid base64 fails the
decode. -/
def parseDataSeg (label : String) : List (List Char) → Except String (Option (List Nat) × List (List Char))
  | [] => .ok (none, [])
  | seg :: t =>
    match stdB64Decode seg with
    | some bytes => .ok (some bytes, t)
    | none => .error ("DecodingError: invalid base64 in " ++ label ++ " segment")

/-- Modelled from the spec: `PHCFormatter.deserialize` of the external
`@xscale/phc-formatter` package (the PHCCodec component, whose source is
not part of this repository). Parses
`$<id>[$v=<version>][$<k1>=<v1>,...][$<salt-b64>][$<hash-b64>]` strictly
left-to-right on `$`, failing with a `DecodingError` on a missing leading
delimiter, an invalid id, a malformed version or parameter segment, an
invalid base64 salt or hash segment, or leftover segments. -/
def deserializeChars (phcString : List Char) : Except String PhcNode :=
  match splitOnChar '$' phcString with
  | [] :: id :: rest0 =>
    if 1 ≤ id.length ∧ id.length ≤ 32 ∧ id.all validIdChar then
      match parseVersionSeg rest0 with
      | .error e => .error e
      | .ok (version, rest1) =>
        match parseParamsSeg rest1 with
        | .error e => .error e
        | .ok (parameters, rest2) =>
          match parseDataSeg "salt" rest2 with
          | .error e => .error e
          | .ok (salt, rest3) =>
            match parseDataSeg "hash" rest3 with
            | .error e => .error e
            | .ok (hash, rest4) =>
              if rest4 = [] then
                .ok ⟨id, version, parameters, salt, hash⟩
              else .error "DecodingError: too many segments"
    else .error "DecodingError: invalid id segment"
  | _ => .error "DecodingError: missing leading delimiter"

/-! ## driver/scrypt.ts -/

/-- The merged scrypt configuration (`Required<ScryptConfig>`). Values are
JS numbers; the integer cases are modelled as `Nat` (the non-integer cases
are the `typeof` branch of `rangeValidator`, modelled by `none`). -/
structure ScryptConfig where
  cost : Nat
  blockSize : Nat
  parallelization : Nat
  saltSize : Nat
  keyLength : Nat
  maxMemory : Nat
deriving Repr, DecidableEq

/-- The constructor's defaults for the scrypt driver. -/
def defaultScryptConfig : ScryptConfig :=
  { cost := 16384
    blockSize := 8
    parallelization := 1
    saltSize := 16
    keyLength := 64
    maxMemory := 32 * 1024 * 1024 }

/-- `Scrypt.#validateConfig`: the range checks run by the constructor, in
source order; the constructor throws exactly when one of them does. -/
def validateScryptConfig (config : ScryptConfig) : Except String Unit := do
  rangeValidator "blockSize" (some config.blockSize) (1, maxUint32)
  rangeValidator "cost" (some config.cost) (2, maxUint32)
  rangeValidator "parallelization" (some config.parallelization)
    (1, ((2 ^ 32 - 1) * 32) / (128 * config.blockSize))
  rangeValidator "saltSize" (some config.saltSize) (8, 1024)
  rangeValidator "keyLength" (some config.keyLength) (64, 128)
  rangeValidator "maxMemory" (some config.maxMemory)
    (128 * config.cost * config.blockSize + 1, maxUint32)

/-- The validated record returned by `Scrypt.#validatePhcString`. -/
structure ScryptPhcNode where
  id : List Char
  hash : List Nat
  salt : List Nat
  r : Nat
  n : Nat
  p : Nat
deriving Repr, DecidableEq

/-- The checks `Scrypt.#validatePhcString` runs on an already-deserialized
record: id, presence of parameters/salt/hash, and the ranges of
`hash.byteLength`, `salt.byteLength`, `r`, `n` and `p`, in source order.
Parameter lookups that find nothing are `none`, which `rangeValidator`
rejects as a `TypeError`. -/
def validateScryptNode (phcNode : PhcNode) : Except String ScryptPhcNode := do
  if phcNode.id ≠ "scrypt".toList then
    .error "TypeError: Invalid id found in the phc string"
  else
    match phcNode.parameters with
    | none => .error "TypeError: No parameters found in the phc string"
    | some parameters =>
      match phcNode.salt with
      | none => .error "TypeError: No salt found in the phc string"
      | some salt =>
        match phcNode.hash with
        | none => .error "TypeError: No hash found in the phc string"
        | some hash => do
          rangeValidator "hash.byteLength" (some hash.length) (64, 128)
          rangeValidator "salt.byteLength" (some salt.length) (8, 1024)
          rangeValidator "r" (parameters.lookup "r".toList) (1, maxUint32)
          rangeValidator "n" (parameters.lookup "n".toList) (1, maxUint32)
          match parameters.lookup "r".toList with
          | none => .error "TypeError: The r option must be an integer"
          | some r => do
            rangeValidator "p" (parameters.lookup "p".toList)
              (1, ((2 ^ 32 - 1) * 32) / (128 * r))
            match parameters.lookup "n".toList, parameters.lookup "p".toList with
            | some n, some p => .ok ⟨phcNode.id, hash, salt, r, n, p⟩
            | _, _ => .error "TypeError: missing parameter"

/-- `Scrypt.#validatePhcString`: deserialize, then validate the record. -/
def validateScryptPhcString (phcString : List Char) : Except String ScryptPhcNode := do
  validateScryptNode (← deserializeChars phcString)

/-- `Scrypt.isValidHash`: `#validatePhcString` with every failure caught
and turned into `false`. -/
def scryptIsValidHash (value : List Char) : Bool :=
  match validateScryptPhcString value with
  | .ok _ => true
  | .error _ => false

/-- The external scrypt key-derivation primitive, as the spec's interface
describes it: a deterministic function of
(plaintext, salt, keyLength, cost, blockSize, parallelization) to a byte
hash of `keyLength` bytes. The KDF math is out of scope and stays an
oracle. -/
def ScryptKdf : Type :=
  List Char → List Nat → Nat → Nat → Nat → Nat → List Nat

/-- `scryptAsync` from helpers.ts, i.e. Node's `crypto.scrypt`. Per the
Node documentation of the `maxmem` option, the call fails when
`128 * N * r > maxmem`; otherwise it yields the KDF oracle's output. -/
def scryptAsync (kdf : ScryptKdf) (value : List Char) (salt : List Nat)
    (keyLength cost blockSize parallelization maxmem : Nat) :
    Except String (List Nat) :=
  if 128 * cost * blockSize > maxmem then
    .error "Error: Invalid scrypt params: larger than maxmem"
  else
    .ok (kdf value salt keyLength cost blockSize parallelization)

/-- The body of `Scrypt.verify`'s `try` block: validate the stored string,
re-derive with the parameters embedded in it (but the *current* config's
`maxMemory`), and compare with `safeEqual`. -/
def scryptVerifyInner (kdf : ScryptKdf) (config : ScryptConfig)
    (hashedValue plainValue : List Char) : Except String Bool := do
  let phcNode ← validateScryptPhcString hashedValue
  let newHash ← scryptAsync kdf plainValue phcNode.salt phcNode.hash.length
    phcNode.n phcNode.r phcNode.p config.maxMemory
  safeEqualBytes newHash phcNode.hash

/-- `Scrypt.verify`: the `try` body with any failure caught as `false`. -/
def scryptVerify (kdf : ScryptKdf) (config : ScryptConfig)
    (hashedValue plainValue : List Char) : Bool :=
  match scryptVerifyInner kdf config hashedValue plainValue with
  | .ok b => b
  | .error _ => false

/-- `Scrypt.needsReHash`: deserializes (with no `try`/`catch`, so a decode
failure propagates), then compares the embedded `n`, `r`, `p` against the
current configuration. -/
def scryptNeedsReHash (config : ScryptConfig) (value : List Char) :
    Except String Bool := do
  let phcNode ← deserializeChars value
  if phcNode.id ≠ "scrypt".toList then
    return true
  else
    match phcNode.parameters with
    | none => return true
    | some parameters =>
      if parameters.lookup "n".toList ≠ some config.cost then
        return true
      else if parameters.lookup "r".toList ≠ some config.blockSize then
        return true
      else if parameters.lookup "p".toList ≠ some config.parallelization then
        return true
      else
        return false

/-! ## driver/bcrypt.ts -/

/-- The merged bcrypt configuration (`Required<BcryptConfig>`). -/
structure BcryptConfig where
  rounds : Nat
  saltSize : Nat
  version : Nat
deriving Repr, DecidableEq

/-- The constructor's defaults for the bcrypt driver. -/
def defaultBcryptConfig : BcryptConfig :=
  { rounds := 10, saltSize := 16, version := 0x62 }

/-- `Bcrypt.#validateConfig`. -/
def validateBcryptConfig (config : BcryptConfig) : Except String Unit := do
  rangeValidator "rounds" (some config.rounds) (4, 31)
  rangeValidator "saltSize" (some config.saltSize) (8, 1024)
  enumValidator "version" (some config.version) [0x61, 0x62]

/-- The lazily imported `bcrypt` npm binding, modelled (per the spec's
external-interface section) as oracles for its two used operations:
`hash(plain, salt)` producing the full native-format string, and
`compare(plain, storedNativeHash)`. -/
structure BcryptBinding where
  hash : List Char → List Char → List Char
  compare : List Char → List Char → Bool

/-- The validated record returned by `Bcrypt.#validatePhcString`. -/
structure BcryptPhcNode where
  id : List Char
  version : Nat
  hash : List Nat
  salt : List Nat
  r : Nat
deriving Repr, DecidableEq

/-- The checks `Bcrypt.#validatePhcString` runs on a deserialized record.
`phcNode.version ||= 0x61` replaces a missing *or zero* version with
`0x61` before anything else. -/
def validateBcryptNode (phcNode : PhcNode) : Except String BcryptPhcNode := do
  let version : Nat :=
    match phcNode.version with
    | none => 0x61
    | some v => if v = 0 then 0x61 else v
  if phcNode.id ≠ "bcrypt".toList then
    .error "TypeError: Invalid id found in the phc string"
  else
    match phcNode.parameters with
    | none => .error "TypeError: No parameters found in the phc string"
    | some parameters =>
      match phcNode.salt with
      | none => .error "TypeError: No salt found in the phc string"
      | some salt =>
        match phcNode.hash with
        | none => .error "TypeError: No hash found in the phc string"
        | some hash =>
          if hash.length = 0 then
            .error "TypeError: No hash found in the phc string"
          else do
            rangeValidator "salt.byteLength" (some salt.length) (8, 1024)
            enumValidator "version" (some version) [0x61, 0x62]
            rangeValidator "r" (parameters.lookup "r".toList) (4, 31)
            match parameters.lookup "r".toList with
            | some r => .ok ⟨phcNode.id, version, hash, salt, r⟩
            | none => .error "TypeError: The r option must be an integer"

/-- `Bcrypt.#validatePhcString`: deserialize, then validate the record. -/
def validateBcryptPhcString (phcString : List Char) : Except String BcryptPhcNode := do
  validateBcryptNode (← deserializeChars phcString)

/-- `Bcrypt.isValidHash`. -/
def bcryptIsValidHash (value : List Char) : Bool :=
  match validateBcryptPhcString value with
  | .ok _ => true
  | .error _ => false

/-- `Bcrypt.#generateBcryptSalt(salt, version, rounds)`:
`$2<versionChar>$<paddedRounds>$<bcryptBase64(salt)>`. -/
def generateBcryptSalt (salt : List Nat) (version rounds : Nat) : List Char :=
  "$2".toList ++ [Char.ofNat version] ++ "$".toList ++
    (if rounds > 9 then (toString rounds).toList
     else "0".toList ++ (toString rounds).toList) ++
    "$".toList ++ bcryptB64Encode salt

/-- JS `string.split(separator)` for a non-empty string separator,
restricted to the use here (`bcryptHash.split(bcryptSalt)`). -/
def splitOnSeq (sep : List Char) : List Char → List (List Char)
  | [] => [[]]
  | c :: cs =>
    if h : sep ≠ [] ∧ sep.isPrefixOf (c :: cs) then
      [] :: splitOnSeq sep ((c :: cs).drop sep.length)
    else
      match splitOnSeq sep cs with
      | [] => [[c]]
      | l :: ls => (c :: l) :: ls
termination_by s => s.length
decreasing_by
  · simp only [List.length_drop, List.length_cons]
    have hne : sep ≠ [] := h.1
    have : 0 < sep.length := List.length_pos.mpr hne
    omega
  · simp

/-- The body of `Bcrypt.verify`'s `try` block past the legacy check:
validate the stored string, re-derive the native bcrypt hash from the
embedded salt, version and rounds, split off the salt prefix, decode the
trailing segment with the bcrypt base64 codec, and compare with
`safeEqual`. `split(...)[1]` being absent is the JS `undefined` whose use
throws. -/
def bcryptVerifyInner (binding : BcryptBinding) (hashedValue plainValue : List Char) :
    Except String Bool := do
  let phcNode ← validateBcryptPhcString hashedValue
  let bcryptSalt := generateBcryptSalt phcNode.salt phcNode.version phcNode.r
  let bcryptHash := binding.hash plainValue bcryptSalt
  match (splitOnSeq bcryptSalt bcryptHash).get? 1 with
  | none => .error "TypeError: argument of decode is undefined"
  | some segment => do
    let hash ← bcryptB64Decode segment
    safeEqualBytes hash phcNode.hash

/-- `Bcrypt.verify`: hashes tagged with the native `$2b`/`$2a` prefix go
straight to the binding's own `compare`; everything else runs the PHC
path, with any failure caught as `false`. The driver's configuration is in
scope (the method lives on the class) but the body reads nothing from
it. -/
def bcryptVerify (binding : BcryptBinding) (_config : BcryptConfig)
    (hashedValue plainValue : List Char) : Bool :=
  if "$2b".toList.isPrefixOf hashedValue ∨ "$2a".toList.isPrefixOf hashedValue then
    binding.compare plainValue hashedValue
  else
    match bcryptVerifyInner binding hashedValue plainValue with
    | .ok b => b
    | .error _ => false

/-- `Bcrypt.needsReHash`: native-format strings need a rehash outright;
otherwise deserialize (again with no `try`/`catch`) and compare the
embedded version and rounds against the current configuration. -/
def bcryptNeedsReHash (config : BcryptConfig) (value : List Char) :
    Except String Bool :=
  if "$2b".toList.isPrefixOf value ∨ "$2a".toList.isPrefixOf value then
    .ok true
  else do
    let phcNode ← deserializeChars value
    if phcNode.id ≠ "bcrypt".toList then
      return true
    else if phcNode.version ≠ some config.version then
      return true
    else
      match phcNode.parameters with
      | none => return true
      | some parameters =>
        if parameters.lookup "r".toList ≠ some config.rounds then
          return true
        else
          return false

/-! ## Oracle and fixture values used by concrete instantiations -/

/-- A concrete KDF oracle: ignores everything but the requested key length
and returns that many zero bytes (any deterministic function of the listed
inputs is a legitimate instantiation of the external primitive). -/
def zeroKdf : ScryptKdf :=
  fun _ _ keyLength _ _ _ => List.replicate keyLength 0

/-- A concrete bcrypt binding whose `compare` accepts: the behaviour the
external primitive exhibits when the candidate plaintext matches a stored
native-format hash. -/
def trueCompareBinding : BcryptBinding :=
  { hash := fun _ _ => [], compare := fun _ _ => true }

/-- The default scrypt configuration with a roomier `maxMemory`
(`2^27` bytes); every field passes `#validateConfig`. -/
def bigMemScryptConfig : ScryptConfig :=
  { defaultScryptConfig with maxMemory := 134217728 }

/-- The default scrypt configuration with a different salt size; used to
instantiate two distinct configurations sharing their `maxMemory`. -/
def altSaltScryptConfig : ScryptConfig :=
  { defaultScryptConfig with saltSize := 32 }

/-! ## Supporting lemmas: bcrypt base64 round-trip -/

set_option maxRecDepth 100000

theorem land255 : ∀ b : Nat, b < 256 → b &&& 255 = b := by decide

theorem char64_bcryptSym : ∀ v : Nat, v < 64 → char64 (bcryptSym v) = (v : Int) := by decide

theorem bcryptSym_toNat_ne_zero : ∀ v : Nat, v < 64 → (bcryptSym v).toNat ≠ 0 := by decide

theorem roundI1 : ∀ a : Nat, a < 256 → ∀ w : Nat, w < 16 →
    ((((a >>> 2) &&& 63) <<< 2) ||| ((((((a &&& 3) <<< 4) ||| w) &&& 63) &&& 48) >>> 4)) = a := by
  decide

theorem roundI2 : ∀ u : Nat, u < 4 → ∀ b : Nat, b < 256 → ∀ v : Nat, v < 4 →
    ((((((u <<< 4) ||| ((b >>> 4) &&& 15)) &&& 63) &&& 15) <<< 4) |||
      ((((((b &&& 15) <<< 2) ||| (v &&& 3)) &&& 63) &&& 60) >>> 2)) = b := by decide

theorem roundI3 : ∀ u : Nat, u < 16 → ∀ b : Nat, b < 256 →
    ((((((u <<< 2) ||| ((b >>> 6) &&& 3)) &&& 63) &&& 3) <<< 6) ||| (b &&& 63)) = b := by decide

theorem roundI1s : ∀ a : Nat, a < 256 →
    ((((a >>> 2) &&& 63) <<< 2) ||| (((((a &&& 3) <<< 4) &&& 63) &&& 48) >>> 4)) = a := by decide

theorem roundI2s : ∀ u : Nat, u < 4 → ∀ b : Nat, b < 256 →
    ((((((u <<< 4) ||| ((b >>> 4) &&& 15)) &&& 63) &&& 15) <<< 4) |||
      (((((b &&& 15) <<< 2) &&& 63) &&& 60) >>> 2)) = b := by decide

theorem jsOr32_eq_lor (o : Nat) (c : Int) : jsOr32 o c = Int.lor (Int.ofNat o) c := by
  cases c with
  | ofNat n => rfl
  | negSucc n =>
    show Int.negSucc (n ^^^ (n &&& o)) = Int.negSucc (Nat.ldiff n o)
    congr 1
    apply Nat.eq_of_testBit_eq
    intro k
    simp only [Nat.testBit_ldiff, Nat.testBit_xor, Nat.testBit_and]
    cases hn : n.testBit k <;> cases ho : o.testBit k <;> rfl

theorem jsOr32_natCast (m n : Nat) : jsOr32 m (↑n) = ↑(m ||| n) := rfl

theorem and63_lt (x : Nat) : x &&& 63 < 64 :=
  Nat.lt_succ_of_le (Nat.and_le_right)

theorem and15_lt (x : Nat) : x &&& 15 < 16 :=
  Nat.lt_succ_of_le (Nat.and_le_right)

theorem and3_lt (x : Nat) : x &&& 3 < 4 :=
  Nat.lt_succ_of_le (Nat.and_le_right)

theorem shr6_lt (b : Nat) (h : b < 256) : b >>> 6 < 4 := by
  rw [Nat.shiftRight_eq_div_pow]
  omega

/-- One full group: decoding four symbols produced from three bytes
recovers the bytes and continues the loop behind them. -/
theorem decodeCore_encode_chunk (b1 b2 b3 : Nat) (h1 : b1 < 256) (h2 : b2 < 256) (h3 : b3 < 256)
    (rest : List Nat) (len olen : Nat) (hlen : olen + 3 ≤ len) (acc : List Nat) :
    bcryptB64DecodeCore len (bcryptB64Encode (b1 :: b2 :: b3 :: rest)) olen acc =
      bcryptB64DecodeCore len (bcryptB64Encode rest) (olen + 3) (acc ++ [b1, b2, b3]) := by
  have e1 := char64_bcryptSym _ (and63_lt (b1 >>> 2))
  have e2 := char64_bcryptSym _ (and63_lt (((b1 &&& 3) <<< 4) ||| ((b2 >>> 4) &&& 15)))
  have e3 := char64_bcryptSym _ (and63_lt (((b2 &&& 15) <<< 2) ||| ((b3 >>> 6) &&& 3)))
  have e4 := char64_bcryptSym _ (and63_lt b3)
  have n1 := bcryptSym_toNat_ne_zero _ (and63_lt (b1 >>> 2))
  have n2 := bcryptSym_toNat_ne_zero _ (and63_lt (((b1 &&& 3) <<< 4) ||| ((b2 >>> 4) &&& 15)))
  have n3 := bcryptSym_toNat_ne_zero _ (and63_lt (((b2 &&& 15) <<< 2) ||| ((b3 >>> 6) &&& 3)))
  have n4 := bcryptSym_toNat_ne_zero _ (and63_lt b3)
  simp only [bcryptB64Encode, land255 b1 h1, land255 b2 h2, land255 b3 h3,
    List.cons_append, List.nil_append]
  simp only [bcryptB64DecodeCore, e1, e2, e3, e4, if_neg n1, if_neg n2, if_neg n3, if_neg n4,
    Int.toNat_natCast, jsOr32_natCast]
  rw [if_pos (show olen < len by omega)]
  rw [if_neg (show ¬ ((((b1 >>> 2) &&& 63 : Nat) : Int) = -1 ∨
        ((((((b1 &&& 3) <<< 4) ||| ((b2 >>> 4) &&& 15)) &&& 63 : Nat) : Int) = -1)) by omega)]
  rw [if_neg (show ¬ olen + 1 ≥ len by omega)]
  rw [if_neg (show ¬ ((((((b2 &&& 15) <<< 2) ||| ((b3 >>> 6) &&& 3)) &&& 63 : Nat) : Int) = -1) by
    omega)]
  rw [if_neg (show ¬ olen + 2 ≥ len by omega)]
  rw [if_neg (show ¬ ((((((((b2 &&& 15) <<< 2) ||| ((b3 >>> 6) &&& 3)) &&& 63) &&& 3) <<< 6 |||
        (b3 &&& 63) : Nat) : Int) < 0) by omega)]
  rw [roundI1 b1 h1 ((b2 >>> 4) &&& 15) (and15_lt _),
    roundI2 (b1 &&& 3) (and3_lt _) b2 h2 (b3 >>> 6) (shr6_lt b3 h3),
    roundI3 (b2 &&& 15) (and15_lt _) b3 h3]

/-- A trailing single byte: its two symbols decode back to the byte. -/
theorem decodeCore_encode_one (b1 : Nat) (h1 : b1 < 256) (len olen : Nat)
    (hlen : olen < len) (acc : List Nat) :
    bcryptB64DecodeCore len (bcryptB64Encode [b1]) olen acc = .ok (acc ++ [b1]) := by
  have e1 := char64_bcryptSym _ (and63_lt (b1 >>> 2))
  have e2 := char64_bcryptSym _ (and63_lt ((b1 &&& 3) <<< 4))
  have n1 := bcryptSym_toNat_ne_zero _ (and63_lt (b1 >>> 2))
  have n2 := bcryptSym_toNat_ne_zero _ (and63_lt ((b1 &&& 3) <<< 4))
  simp only [bcryptB64Encode, land255 b1 h1]
  simp only [bcryptB64DecodeCore, e1, e2, if_neg n1, if_neg n2, Int.toNat_natCast]
  rw [if_pos hlen]
  rw [if_neg (show ¬ ((((b1 >>> 2) &&& 63 : Nat) : Int) = -1 ∨
        ((((b1 &&& 3) <<< 4) &&& 63 : Nat) : Int) = -1) by omega)]
  rw [roundI1s b1 h1]

/-- A trailing pair of bytes: their three symbols decode back to the
bytes. -/
theorem decodeCore_encode_two (b1 b2 : Nat) (h1 : b1 < 256) (h2 : b2 < 256) (len olen : Nat)
    (hlen : olen + 2 ≤ len) (acc : List Nat) :
    bcryptB64DecodeCore len (bcryptB64Encode [b1, b2]) olen acc = .ok (acc ++ [b1, b2]) := by
  have e1 := char64_bcryptSym _ (and63_lt (b1 >>> 2))
  have e2 := char64_bcryptSym _ (and63_lt (((b1 &&& 3) <<< 4) ||| ((b2 >>> 4) &&& 15)))
  have e3 := char64_bcryptSym _ (and63_lt ((b2 &&& 15) <<< 2))
  have n1 := bcryptSym_toNat_ne_zero _ (and63_lt (b1 >>> 2))
  have n2 := bcryptSym_toNat_ne_zero _ (and63_lt (((b1 &&& 3) <<< 4) ||| ((b2 >>> 4) &&& 15)))
  have n3 := bcryptSym_toNat_ne_zero _ (and63_lt ((b2 &&& 15) <<< 2))
  simp only [bcryptB64Encode, land255 b1 h1, land255 b2 h2]
  simp only [bcryptB64DecodeCore, e1, e2, e3, if_neg n1, if_neg n2, if_neg n3, Int.toNat_natCast]
  rw [if_pos (show olen < len by omega)]
  rw [if_neg (show ¬ ((((b1 >>> 2) &&& 63 : Nat) : Int) = -1 ∨
        ((((((b1 &&& 3) <<< 4) ||| ((b2 >>> 4) &&& 15)) &&& 63 : Nat) : Int) = -1)) by omega)]
  rw [if_neg (show ¬ olen + 1 ≥ len by omega)]
  rw [if_neg (show ¬ (((((b2 &&& 15) <<< 2) &&& 63 : Nat) : Int) = -1) by omega)]
  rw [roundI1 b1 h1 ((b2 >>> 4) &&& 15) (and15_lt _),
    roundI2s (b1 &&& 3) (and3_lt _) b2 h2]

theorem encode_cons3_length (b1 b2 b3 : Nat) (rest : List Nat) :
    (bcryptB64Encode (b1 :: b2 :: b3 :: rest)).length = 4 + (bcryptB64Encode rest).length := by
  simp [bcryptB64Encode]
  omega

/-- The loop invariant of the round-trip: with all of the encoding still
ahead of the output-count limit, decoding the encoding appends exactly the
original bytes. -/
theorem decodeCore_encode : ∀ (bs : List Nat), (∀ b ∈ bs, b < 256) →
    ∀ len olen acc, olen + (bcryptB64Encode bs).length ≤ len →
    bcryptB64DecodeCore len (bcryptB64Encode bs) olen acc = .ok (acc ++ bs)
  | [], _ => by
    intro len olen acc _
    simp [bcryptB64Encode, bcryptB64DecodeCore]
  | [b1], hb => by
    intro len olen acc hl
    have hlen : (bcryptB64Encode [b1]).length = 2 := by simp [bcryptB64Encode]
    exact decodeCore_encode_one b1 (hb b1 (by simp)) len olen (by omega) acc
  | [b1, b2], hb => by
    intro len olen acc hl
    have hlen : (bcryptB64Encode [b1, b2]).length = 3 := by simp [bcryptB64Encode]
    exact decodeCore_encode_two b1 b2 (hb b1 (by simp)) (hb b2 (by simp)) len olen (by omega) acc
  | b1 :: b2 :: b3 :: rest, hb => by
    intro len olen acc hl
    rw [encode_cons3_length] at hl
    rw [decodeCore_encode_chunk b1 b2 b3 (hb b1 (by simp)) (hb b2 (by simp)) (hb b3 (by simp))
      rest len olen (by omega) acc]
    rw [decodeCore_encode rest (fun b hbr => hb b (by simp [hbr])) len (olen + 3)
      (acc ++ [b1, b2, b3]) (by omega)]
    simp

/-! ## Supporting lemmas: safeEqual, validators, PHC parsing, drivers -/

theorem bufferWrite_length (size : Nat) (bytes : List Nat) :
    (bufferWrite size bytes).length = size := by
  simp [bufferWrite]
  omega

theorem bufferWrite_self (bytes : List Nat) :
    bufferWrite bytes.length bytes = bytes := by
  simp [bufferWrite]

theorem bufferWrite_of_length_eq (n : Nat) (bytes : List Nat) (h : bytes.length = n) :
    bufferWrite n bytes = bytes := by
  subst h
  exact bufferWrite_self bytes

theorem isError_ok {α : Type} (a : α) : isError (Except.ok a : Except String α) = false := rfl

theorem rangeValidator_ok_iff (label : String) (v lo hi : Nat) :
    rangeValidator label (some v) (lo, hi) = .ok () ↔ (lo ≤ v ∧ v ≤ hi) := by
  unfold rangeValidator
  dsimp only
  split_ifs with h
  · constructor
    · intro hh
      exact absurd hh (by simp)
    · intro hh
      exact absurd h (by omega)
  · constructor
    · intro _
      omega
    · intro _
      rfl

theorem enumValidator_ok_iff (label : String) (v : Nat) (allowed : List Nat) :
    enumValidator label (some v) allowed = .ok () ↔ allowed.contains v = true := by
  unfold enumValidator
  dsimp only
  split_ifs with h <;> simp_all

theorem seq_ok_iff {β : Type} (e : Except String Unit) (k : Unit → Except String β) (b : β) :
    (e >>= k) = .ok b ↔ (e = .ok () ∧ k () = .ok b) := by
  cases e with
  | error _ => simp [Bind.bind, Except.bind]
  | ok u => cases u; simp [Bind.bind, Except.bind]

theorem seq_isError_false_iff {β : Type} (e : Except String Unit) (k : Unit → Except String β) :
    isError (e >>= k) = false ↔ (e = .ok () ∧ isError (k ()) = false) := by
  cases e with
  | error _ => simp [Bind.bind, Except.bind, isError]
  | ok u => cases u; simp [Bind.bind, Except.bind]

theorem splitOnChar_sep_head (sep : Char) (cs : List Char) (l : List Char)
    (ls : List (List Char)) (h : splitOnChar sep cs = [] :: l :: ls) :
    ∃ cs', cs = sep :: cs' ∧ splitOnChar sep cs' = l :: ls := by
  cases cs with
  | nil => simp [splitOnChar] at h
  | cons c t =>
    by_cases hc : c = sep
    · rw [splitOnChar, if_pos hc] at h
      exact ⟨t, by rw [hc], by injection h⟩
    · rw [splitOnChar, if_neg hc] at h
      cases hsp : splitOnChar sep t with
      | nil => rw [hsp] at h; simp at h
      | cons l0 ls0 => rw [hsp] at h; simp at h

theorem splitOnChar_char_head (sep : Char) (cs : List Char) (x : Char) (l : List Char)
    (ls : List (List Char)) (h : splitOnChar sep cs = (x :: l) :: ls) :
    ∃ cs', cs = x :: cs' := by
  cases cs with
  | nil => simp [splitOnChar] at h
  | cons c t =>
    by_cases hc : c = sep
    · rw [splitOnChar, if_pos hc] at h
      simp at h
    · rw [splitOnChar, if_neg hc] at h
      cases hsp : splitOnChar sep t with
      | nil =>
        rw [hsp] at h
        exact ⟨t, by injection h with h1 _; injection h1 with h2 _; rw [h2]⟩
      | cons l0 ls0 =>
        rw [hsp] at h
        exact ⟨t, by injection h with h1 _; injection h1 with h2 _; rw [h2]⟩

/-- A record that deserialized successfully came from a string whose first
`$`-segment is empty and whose second is the record's id. -/
theorem deserializeChars_ok_split (cs : List Char) (node : PhcNode)
    (h : deserializeChars cs = .ok node) :
    ∃ rest, splitOnChar '$' cs = [] :: node.id :: rest := by
  unfold deserializeChars at h
  split at h
  case _ id rest0 heq =>
    refine ⟨rest0, ?_⟩
    split at h
    case isTrue =>
      split at h
      case _ => exact absurd h (by simp)
      case _ version rest1 hv =>
        split at h
        case _ => exact absurd h (by simp)
        case _ parameters rest2 hp =>
          split at h
          case _ => exact absurd h (by simp)
          case _ salt rest3 hs =>
            split at h
            case _ => exact absurd h (by simp)
            case _ hash rest4 hh =>
              split at h
              case isTrue =>
                injection h with h1
                rw [← h1]
                exact heq
              case isFalse => exact absurd h (by simp)
    case isFalse => exact absurd h (by simp)
  case _ => exact absurd h (by simp)

/-- A string that deserializes to a record whose id is `bcrypt` cannot
carry the native `$2b`/`$2a` prefix. -/
theorem deserializeChars_bcrypt_not_legacy (cs : List Char) (node : PhcNode)
    (h : deserializeChars cs = .ok node) (hid : node.id = "bcrypt".toList) :
    ¬ ("$2b".toList.isPrefixOf cs ∨ "$2a".toList.isPrefixOf cs) := by
  obtain ⟨rest, hsp⟩ := deserializeChars_ok_split cs node h
  rw [hid] at hsp
  have hb : "bcrypt".toList = 'b' :: "crypt".toList := rfl
  rw [hb] at hsp
  obtain ⟨cs1, hcs1, hsp1⟩ := splitOnChar_sep_head '$' cs _ rest hsp
  obtain ⟨cs2, hcs2⟩ := splitOnChar_char_head '$' cs1 'b' _ rest hsp1
  rw [hcs1, hcs2]
  intro hpre
  rcases hpre with hpre | hpre
  · have hx : "$2b".toList = ['$', '2', 'b'] := rfl
    rw [hx] at hpre
    simp [List.isPrefixOf] at hpre
  · have hx : "$2a".toList = ['$', '2', 'a'] := rfl
    rw [hx] at hpre
    simp [List.isPrefixOf] at hpre

theorem scryptVerifyInner_error_of_validate (kdf : ScryptKdf) (config : ScryptConfig)
    (hashedValue plainValue : List Char) (e : String)
    (h : validateScryptPhcString hashedValue = .error e) :
    scryptVerifyInner kdf config hashedValue plainValue = .error e := by
  unfold scryptVerifyInner
  rw [h]
  rfl

theorem scryptVerify_false_of_inner_error (kdf : ScryptKdf) (config : ScryptConfig)
    (hashedValue plainValue : List Char)
    (h : isError (scryptVerifyInner kdf config hashedValue plainValue) = true) :
    scryptVerify kdf config hashedValue plainValue = false := by
  unfold scryptVerify
  split
  case _ b hb => rw [hb] at h; exact absurd h (by simp [isError])
  case _ e he => rfl

theorem bcryptVerifyInner_error_of_validate (binding : BcryptBinding)
    (hashedValue plainValue : List Char) (e : String)
    (h : validateBcryptPhcString hashedValue = .error e) :
    bcryptVerifyInner binding hashedValue plainValue = .error e := by
  unfold bcryptVerifyInner
  rw [h]
  rfl

theorem bcryptVerify_false_of_inner_error (binding : BcryptBinding) (config : BcryptConfig)
    (hashedValue plainValue : List Char)
    (hpre : ¬ ("$2b".toList.isPrefixOf hashedValue ∨ "$2a".toList.isPrefixOf hashedValue))
    (h : isError (bcryptVerifyInner binding hashedValue plainValue) = true) :
    bcryptVerify binding config hashedValue plainValue = false := by
  unfold bcryptVerify
  rw [if_neg hpre]
  split
  case _ b hb => rw [hb] at h; exact absurd h (by simp [isError])
  case _ e he => rfl

theorem safeEqualStrings_ok_true_iff (trustedValue userInput : String) :
    safeEqualStrings trustedValue userInput = .ok true ↔
      utf8Bytes trustedValue = utf8Bytes userInput := by
  unfold safeEqualStrings timingSafeEqual
  dsimp only
  rw [if_pos (by rw [bufferWrite_length, bufferWrite_length])]
  simp only [Except.bind, Bind.bind, Except.pure, pure, Except.ok.injEq, Bool.and_eq_true,
    beq_iff_eq]
  constructor
  · rintro ⟨hbuf, hlen⟩
    rw [bufferWrite_self, bufferWrite_of_length_eq _ _ hlen.symm] at hbuf
    exact hbuf
  · intro h
    rw [h, bufferWrite_self]
    simp [h]

theorem scryptNeedsReHash_ok_false_iff (config : ScryptConfig) (value : List Char)
    (node : PhcNode) (ps : List (List Char × Nat)) (hds : deserializeChars value = .ok node)
    (hid : node.id = "scrypt".toList) (hps : node.parameters = some ps) :
    (scryptNeedsReHash config value = .ok false ↔
      (ps.lookup "n".toList = some config.cost ∧
       ps.lookup "r".toList = some config.blockSize ∧
       ps.lookup "p".toList = some config.parallelization)) := by
  unfold scryptNeedsReHash
  rw [hds]
  simp only [Except.bind, Bind.bind]
  rw [if_neg (show ¬ node.id ≠ "scrypt".toList from fun hh => hh hid)]
  rw [hps]
  dsimp only
  split_ifs with h1 h2 h3 <;> simp_all [Except.pure, pure]

theorem bcryptNeedsReHash_ok_false_iff (config : BcryptConfig) (value : List Char)
    (node : PhcNode) (ps : List (List Char × Nat)) (hds : deserializeChars value = .ok node)
    (hid : node.id = "bcrypt".toList) (hps : node.parameters = some ps) :
    (bcryptNeedsReHash config value = .ok false ↔
      (node.version = some config.version ∧
       ps.lookup "r".toList = some config.rounds)) := by
  unfold bcryptNeedsReHash
  rw [if_neg (deserializeChars_bcrypt_not_legacy value node hds hid)]
  rw [hds]
  simp only [Except.bind, Bind.bind]
  rw [if_neg (show ¬ node.id ≠ "bcrypt".toList from fun hh => hh hid)]
  split_ifs with h1 h2 <;> first
    | (rw [hps]; dsimp only; split_ifs with h3 <;> simp_all [Except.pure, pure])
    | simp_all [Except.pure, pure]

theorem validateScryptConfig_ok_iff (config : ScryptConfig) :
    validateScryptConfig config = .ok () ↔
      (1 ≤ config.blockSize ∧ config.blockSize ≤ maxUint32 ∧
       2 ≤ config.cost ∧ config.cost ≤ maxUint32 ∧
       1 ≤ config.parallelization ∧
       config.parallelization ≤ ((2 ^ 32 - 1) * 32) / (128 * config.blockSize) ∧
       8 ≤ config.saltSize ∧ config.saltSize ≤ 1024 ∧
       64 ≤ config.keyLength ∧ config.keyLength ≤ 128 ∧
       128 * config.cost * config.blockSize < config.maxMemory ∧
       config.maxMemory ≤ maxUint32) := by
  unfold validateScryptConfig
  simp only [seq_ok_iff, rangeValidator_ok_iff]
  omega

theorem validateBcryptConfig_ok_iff (config : BcryptConfig) :
    validateBcryptConfig config = .ok () ↔
      (4 ≤ config.rounds ∧ config.rounds ≤ 31 ∧
       8 ≤ config.saltSize ∧ config.saltSize ≤ 1024 ∧
       (config.version = 0x61 ∨ config.version = 0x62)) := by
  unfold validateBcryptConfig
  simp only [seq_ok_iff, rangeValidator_ok_iff, enumValidator_ok_iff]
  simp [List.contains]
  omega

theorem validateScryptNode_ok_iff (node : PhcNode) (ps : List (List Char × Nat))
    (salt hash : List Nat) (n r p : Nat)
    (hid : node.id = "scrypt".toList) (hps : node.parameters = some ps)
    (hsalt : node.salt = some salt) (hhash : node.hash = some hash)
    (hn : ps.lookup "n".toList = some n) (hr : ps.lookup "r".toList = some r)
    (hp : ps.lookup "p".toList = some p) :
    (isError (validateScryptNode node) = false ↔
      (64 ≤ hash.length ∧ hash.length ≤ 128 ∧
       8 ≤ salt.length ∧ salt.length ≤ 1024 ∧
       1 ≤ r ∧ r ≤ maxUint32 ∧
       1 ≤ n ∧ n ≤ maxUint32 ∧
       1 ≤ p ∧ p ≤ ((2 ^ 32 - 1) * 32) / (128 * r))) := by
  unfold validateScryptNode
  rw [if_neg (show ¬ node.id ≠ "scrypt".toList from fun hh => hh hid)]
  rw [hps, hsalt, hhash]
  dsimp only
  rw [hn, hr, hp]
  simp only [seq_isError_false_iff, rangeValidator_ok_iff, isError_ok, and_true]
  tauto

theorem validateBcryptNode_ok_iff (node : PhcNode) (ps : List (List Char × Nat))
    (salt hash : List Nat) (v r : Nat)
    (hid : node.id = "bcrypt".toList) (hps : node.parameters = some ps)
    (hsalt : node.salt = some salt) (hhash : node.hash = some hash)
    (hv : node.version = some v) (hvnz : v ≠ 0)
    (hr : ps.lookup "r".toList = some r) :
    (isError (validateBcryptNode node) = false ↔
      (hash.length ≠ 0 ∧
       8 ≤ salt.length ∧ salt.length ≤ 1024 ∧
       (v = 0x61 ∨ v = 0x62) ∧
       4 ≤ r ∧ r ≤ 31)) := by
  unfold validateBcryptNode
  rw [hv]
  dsimp only
  rw [if_neg hvnz]
  rw [if_neg (show ¬ node.id ≠ "bcrypt".toList from fun hh => hh hid)]
  rw [hps, hsalt, hhash]
  dsimp only
  rw [hr]
  by_cases hz : hash.length = 0
  · rw [if_pos hz]
    simp [isError, hz]
  · rw [if_neg hz]
    dsimp only
    simp only [seq_isError_false_iff, rangeValidator_ok_iff, enumValidator_ok_iff, isError_ok,
      and_true]
    simp only [List.contains, List.elem_eq_mem, List.mem_cons, List.mem_singleton,
      decide_eq_true_eq]
    constructor
    · rintro ⟨a, b, c⟩
      exact ⟨hz, a.1, a.2, by simpa using b, c.1, c.2⟩
    · rintro ⟨_, a, b, c, d, e⟩
      exact ⟨⟨a, b⟩, by simpa using c, d, e⟩

theorem safeEqualStrings_ok_false_of_length_ne (trustedValue userInput : String)
    (h : (utf8Bytes trustedValue).length ≠ (utf8Bytes userInput).length) :
    safeEqualStrings trustedValue userInput = .ok false := by
  unfold safeEqualStrings timingSafeEqual
  dsimp only
  rw [if_pos (by rw [bufferWrite_length, bufferWrite_length])]
  simp only [Except.bind, Bind.bind, Except.pure, pure, Except.ok.injEq]
  have hb : ((utf8Bytes trustedValue).length == (utf8Bytes userInput).length) = false := by
    simp [h]
  rw [hb, Bool.and_false]

/-! ## The claims -/

/-- C1: the claim says that on every input failing PHC decoding each
driver's `needsReHash` returns true and never throws. On the spec's own
malformed example the decode fails and `isValidHash` returns false, but
both drivers' `needsReHash` call `deserialize` outside any `try`/`catch`
and propagate the `DecodingError` instead of returning true: the code
contradicts the spec's stated fail-closed policy. -/
theorem C1_needsReHash_throws_on_malformed :
    isError (deserializeChars "$scrypt$n=abc$salt$hash".toList) = true ∧
    scryptIsValidHash "$scrypt$n=abc$salt$hash".toList = false ∧
    isError (scryptNeedsReHash defaultScryptConfig "$scrypt$n=abc$salt$hash".toList) = true ∧
    isError (bcryptNeedsReHash defaultBcryptConfig "$scrypt$n=abc$salt$hash".toList) = true :=
  ⟨rfl, rfl, rfl, rfl⟩

/-- C2 counterexample: a bcrypt native-format string that fails PHC
decoding (its body holds `.`, invalid in the PHC base64 alphabet) is
routed to the external `compare` before any decoding, and verifies true
when the primitive accepts — refuting "verify returns false for every
hashed value that fails PHC decoding". -/
theorem C2_cex_legacy_string_verifies_despite_decode_failure :
    isError (deserializeChars "$2b$10$hash.with.dots".toList) = true ∧
    isError (validateBcryptPhcString "$2b$10$hash.with.dots".toList) = true ∧
    bcryptVerify trueCompareBinding defaultBcryptConfig "$2b$10$hash.with.dots".toList
      "secret".toList = true :=
  ⟨rfl, rfl, rfl⟩

/-- C2 (amended): on any hashed value that fails `#validatePhcString`,
`Scrypt.verify` returns false, and `Bcrypt.verify` returns false provided
the value does not carry the native `$2b`/`$2a` prefix that bypasses PHC
decoding. -/
theorem C2_verify_false_on_undecodable_hash :
    (∀ (kdf : ScryptKdf) (config : ScryptConfig) (hashedValue plainValue : List Char)
      (e : String), validateScryptPhcString hashedValue = .error e →
      scryptVerify kdf config hashedValue plainValue = false) ∧
    (∀ (binding : BcryptBinding) (config : BcryptConfig) (hashedValue plainValue : List Char)
      (e : String),
      ¬ ("$2b".toList.isPrefixOf hashedValue ∨ "$2a".toList.isPrefixOf hashedValue) →
      validateBcryptPhcString hashedValue = .error e →
      bcryptVerify binding config hashedValue plainValue = false) := by
  constructor
  · intro kdf config hashedValue plainValue e h
    exact scryptVerify_false_of_inner_error kdf config hashedValue plainValue
      (by rw [scryptVerifyInner_error_of_validate kdf config hashedValue plainValue e h]; rfl)
  · intro binding config hashedValue plainValue e hpre h
    exact bcryptVerify_false_of_inner_error binding config hashedValue plainValue hpre
      (by rw [bcryptVerifyInner_error_of_validate binding hashedValue plainValue e h]; rfl)

/-- C2 witness: concrete undecodable inputs for both drivers. -/
theorem C2_verify_false_on_undecodable_hash_witness :
    scryptVerify zeroKdf defaultScryptConfig "$scrypt$n=abc$salt$hash".toList "pw".toList
        = false ∧
    bcryptVerify trueCompareBinding defaultBcryptConfig "hello".toList "pw".toList = false :=
  ⟨C2_verify_false_on_undecodable_hash.1 zeroKdf defaultScryptConfig _ _
      "DecodingError: invalid parameters segment" rfl,
    C2_verify_false_on_undecodable_hash.2 trueCompareBinding defaultBcryptConfig _ _
      "DecodingError: missing leading delimiter" (by decide) rfl⟩

/-- C3: the string branch of `safeEqual` returns true exactly when the two
strings have identical UTF-8 byte sequences, and in particular returns
false whenever the byte lengths differ. -/
theorem C3_safeEqual_iff_utf8_bytes_eq :
    (∀ trustedValue userInput : String,
      safeEqualStrings trustedValue userInput = .ok true ↔
        utf8Bytes trustedValue = utf8Bytes userInput) ∧
    (∀ trustedValue userInput : String,
      (utf8Bytes trustedValue).length ≠ (utf8Bytes userInput).length →
      safeEqualStrings trustedValue userInput = .ok false) :=
  ⟨safeEqualStrings_ok_true_iff, safeEqualStrings_ok_false_of_length_ne⟩

/-- C3 witness: a concrete length mismatch. -/
theorem C3_safeEqual_iff_utf8_bytes_eq_witness :
    safeEqualStrings "ab" "a" = .ok false :=
  C3_safeEqual_iff_utf8_bytes_eq.2 "ab" "a" (by decide)

/-- C4: decoding the bcrypt-base64 encoding of any byte sequence of length
1 to 72 returns exactly the original bytes. -/
theorem C4_bcryptBase64_roundtrip (bytes : List Nat) (hlen1 : 1 ≤ bytes.length)
    (hlen2 : bytes.length ≤ 72) (hb : ∀ b ∈ bytes, b < 256) :
    bcryptB64Decode (bcryptB64Encode bytes) = .ok bytes := by
  unfold bcryptB64Decode
  simpa using decodeCore_encode bytes hb (bcryptB64Encode bytes).length 0 [] (by omega)

/-- C4 witness: a concrete round trip. -/
theorem C4_bcryptBase64_roundtrip_witness :
    bcryptB64Decode (bcryptB64Encode [0, 255, 7, 42]) = .ok [0, 255, 7, 42] :=
  C4_bcryptBase64_roundtrip [0, 255, 7, 42] (by decide) (by decide) (by decide)

/-- C5: the claim says `decode` never throws and truncates at the first
invalid symbol. It does stop silently on an invalid first, second or third
symbol of a group ("A!" and "AA!"), but an invalid *fourth* symbol is
OR-ed in as `-1` unchecked, producing a negative code point on which
`String.fromCodePoint` throws a `RangeError`: the code contradicts the
spec's stop-not-fail description of its own behaviour. -/
theorem C5_decode_throws_on_invalid_fourth_symbol :
    bcryptB64Decode "A!".toList = .ok [] ∧
    bcryptB64Decode "AA!".toList = .ok [8] ∧
    isError (bcryptB64Decode "AAA!".toList) = true :=
  ⟨rfl, rfl, rfl⟩

/-- C6 counterexample: two validly configured drivers differing only in
`maxMemory` disagree on verifying the same stored hash with the same
plaintext and the same KDF oracle, because `Scrypt.verify` passes the
*current* configuration's `maxMemory` to the primitive, which per the Node
documentation fails when `128 * N * r` exceeds it — refuting "the driver's
current configuration has no effect on the result". -/
theorem C6_cex_maxMemory_affects_verify :
    validateScryptConfig defaultScryptConfig = .ok () ∧
    validateScryptConfig bigMemScryptConfig = .ok () ∧
    scryptVerify zeroKdf defaultScryptConfig
      "$scrypt$n=65536,r=8,p=1$AAAAAAAAAAAAAAAAAAAAAA$AAAAAAAAAAAAAAAAAAAAAAAAAAAAAAAAAAAAAAAAAAAAAAAAAAAAAAAAAAAAAAAAAAAAAAAAAAAAAAAAAAAAAA".toList "pw".toList = false ∧
    scryptVerify zeroKdf bigMemScryptConfig
      "$scrypt$n=65536,r=8,p=1$AAAAAAAAAAAAAAAAAAAAAA$AAAAAAAAAAAAAAAAAAAAAAAAAAAAAAAAAAAAAAAAAAAAAAAAAAAAAAAAAAAAAAAAAAAAAAAAAAAAAAAAAAAAAA".toList "pw".toList = true :=
  ⟨rfl, rfl, rfl, rfl⟩

/-- C6 (amended): verification re-derives from the record's embedded salt,
parameters and hash length; the current configuration reaches the result
only through scrypt's `maxMemory` (two configurations sharing `maxMemory`
always agree), and bcrypt's `verify` is configuration-independent
outright. -/
theorem C6_verify_uses_embedded_parameters :
    (∀ (kdf : ScryptKdf) (c1 c2 : ScryptConfig) (hashedValue plainValue : List Char),
      c1.maxMemory = c2.maxMemory →
      scryptVerify kdf c1 hashedValue plainValue = scryptVerify kdf c2 hashedValue plainValue) ∧
    (∀ (binding : BcryptBinding) (c1 c2 : BcryptConfig) (hashedValue plainValue : List Char),
      bcryptVerify binding c1 hashedValue plainValue
        = bcryptVerify binding c2 hashedValue plainValue) := by
  constructor
  · intro kdf c1 c2 hashedValue plainValue h
    unfold scryptVerify scryptVerifyInner
    rw [h]
  · intro binding c1 c2 hashedValue plainValue
    rfl

/-- C6 witness: two distinct configurations sharing `maxMemory` agree. -/
theorem C6_verify_uses_embedded_parameters_witness :
    scryptVerify zeroKdf defaultScryptConfig "$scrypt$n=16384,r=8,p=1".toList "pw".toList =
      scryptVerify zeroKdf altSaltScryptConfig "$scrypt$n=16384,r=8,p=1".toList "pw".toList :=
  C6_verify_uses_embedded_parameters.1 zeroKdf defaultScryptConfig altSaltScryptConfig
    "$scrypt$n=16384,r=8,p=1".toList "pw".toList rfl

/-- C7: for a string that decodes to a record carrying this driver's id
and a parameters map, `needsReHash` answers false exactly when every
embedded parameter (scrypt: n, r, p; bcrypt: version and r) equals the
driver's current configuration — so after a configuration change an old
hash reports true and a hash carrying the new parameters reports
false. -/
theorem C7_needsReHash_false_iff_params_match_config :
    (∀ (config : ScryptConfig) (value : List Char) (node : PhcNode)
      (ps : List (List Char × Nat)), deserializeChars value = .ok node →
      node.id = "scrypt".toList → node.parameters = some ps →
      (scryptNeedsReHash config value = .ok false ↔
        (ps.lookup "n".toList = some config.cost ∧
         ps.lookup "r".toList = some config.blockSize ∧
         ps.lookup "p".toList = some config.parallelization))) ∧
    (∀ (config : BcryptConfig) (value : List Char) (node : PhcNode)
      (ps : List (List Char × Nat)), deserializeChars value = .ok node →
      node.id = "bcrypt".toList → node.parameters = some ps →
      (bcryptNeedsReHash config value = .ok false ↔
        (node.version = some config.version ∧
         ps.lookup "r".toList = some config.rounds))) :=
  ⟨scryptNeedsReHash_ok_false_iff, bcryptNeedsReHash_ok_false_iff⟩

/-- C7 witness: records carrying exactly the default parameters need no
rehash under the default configurations. -/
theorem C7_needsReHash_false_iff_params_match_config_witness :
    scryptNeedsReHash defaultScryptConfig "$scrypt$n=16384,r=8,p=1".toList = .ok false ∧
    bcryptNeedsReHash defaultBcryptConfig "$bcrypt$v=98$r=10".toList = .ok false := by
  constructor
  · exact (C7_needsReHash_false_iff_params_match_config.1 defaultScryptConfig
      "$scrypt$n=16384,r=8,p=1".toList
      ⟨"scrypt".toList, none,
        some [("n".toList, 16384), ("r".toList, 8), ("p".toList, 1)], none, none⟩
      [("n".toList, 16384), ("r".toList, 8), ("p".toList, 1)] rfl rfl rfl).mpr ⟨rfl, rfl, rfl⟩
  · exact (C7_needsReHash_false_iff_params_match_config.2 defaultBcryptConfig
      "$bcrypt$v=98$r=10".toList
      ⟨"bcrypt".toList, some 98, some [("r".toList, 10)], none, none⟩
      [("r".toList, 10)] rfl rfl rfl).mpr ⟨rfl, rfl⟩

/-- C8: a stored value with the primitive's native `$2b`/`$2a` prefix is
always reported as needing a rehash, and `verify` hands it straight to the
external primitive's own `compare`, bypassing PHC decoding. -/
theorem C8_legacy_native_format_routing :
    ∀ (binding : BcryptBinding) (config : BcryptConfig) (hashedValue plainValue : List Char),
      ("$2b".toList.isPrefixOf hashedValue ∨ "$2a".toList.isPrefixOf hashedValue) →
      bcryptVerify binding config hashedValue plainValue
          = binding.compare plainValue hashedValue ∧
        bcryptNeedsReHash config hashedValue = .ok true := by
  intro binding config hashedValue plainValue h
  constructor
  · unfold bcryptVerify
    rw [if_pos h]
  · unfold bcryptNeedsReHash
    rw [if_pos h]

/-- C8 witness: a concrete native-format string. -/
theorem C8_legacy_native_format_routing_witness :
    bcryptVerify trueCompareBinding defaultBcryptConfig "$2b$10$x".toList "pw".toList
        = trueCompareBinding.compare "pw".toList "$2b$10$x".toList ∧
      bcryptNeedsReHash defaultBcryptConfig "$2b$10$x".toList = .ok true :=
  C8_legacy_native_format_routing trueCompareBinding defaultBcryptConfig
    "$2b$10$x".toList "pw".toList (Or.inl (by rfl))

/-- C9 counterexample: the claim says a scrypt record with cost `n` below
2 is rejected at decode time (the constructor's range being 2..2^32-1).
The decode-time check is `[1, maxUint32]`, so a record with `n = 1` passes
`isValidHash` even though the same cost is rejected at construction
time. -/
theorem C9_cex_cost_one_accepted_at_decode :
    scryptIsValidHash "$scrypt$n=1,r=8,p=1$AAAAAAAAAAAAAAAAAAAAAA$AAAAAAAAAAAAAAAAAAAAAAAAAAAAAAAAAAAAAAAAAAAAAAAAAAAAAAAAAAAAAAAAAAAAAAAAAAAAAAAAAAAAAA".toList = true ∧
    isError (validateScryptConfig { defaultScryptConfig with cost := 1 }) = true :=
  ⟨rfl, rfl⟩

/-- C9 (amended): the constructors enforce exactly the documented ranges
(scrypt cost 2..2^32-1, blockSize 1..2^32-1, parallelization up to the
floor bound, saltSize 8..1024, keyLength 64..128, maxMemory above
128*cost*blockSize; bcrypt rounds 4..31, saltSize 8..1024, version one of
the two tags), and decode-time validation enforces the corresponding
ranges on the embedded record — except that scrypt's decode-time cost
range is 1..2^32-1, so `n = 1` is accepted at decode time. -/
theorem C9_parameter_ranges :
    (∀ config : ScryptConfig,
      validateScryptConfig config = .ok () ↔
        (1 ≤ config.blockSize ∧ config.blockSize ≤ maxUint32 ∧
         2 ≤ config.cost ∧ config.cost ≤ maxUint32 ∧
         1 ≤ config.parallelization ∧
         config.parallelization ≤ ((2 ^ 32 - 1) * 32) / (128 * config.blockSize) ∧
         8 ≤ config.saltSize ∧ config.saltSize ≤ 1024 ∧
         64 ≤ config.keyLength ∧ config.keyLength ≤ 128 ∧
         128 * config.cost * config.blockSize < config.maxMemory ∧
         config.maxMemory ≤ maxUint32)) ∧
    (∀ config : BcryptConfig,
      validateBcryptConfig config = .ok () ↔
        (4 ≤ config.rounds ∧ config.rounds ≤ 31 ∧
         8 ≤ config.saltSize ∧ config.saltSize ≤ 1024 ∧
         (config.version = 0x61 ∨ config.version = 0x62))) ∧
    (∀ (node : PhcNode) (ps : List (List Char × Nat)) (salt hash : List Nat) (n r p : Nat),
      node.id = "scrypt".toList → node.parameters = some ps →
      node.salt = some salt → node.hash = some hash →
      ps.lookup "n".toList = some n → ps.lookup "r".toList = some r →
      ps.lookup "p".toList = some p →
      (isError (validateScryptNode node) = false ↔
        (64 ≤ hash.length ∧ hash.length ≤ 128 ∧
         8 ≤ salt.length ∧ salt.length ≤ 1024 ∧
         1 ≤ r ∧ r ≤ maxUint32 ∧
         1 ≤ n ∧ n ≤ maxUint32 ∧
         1 ≤ p ∧ p ≤ ((2 ^ 32 - 1) * 32) / (128 * r)))) ∧
    (∀ (node : PhcNode) (ps : List (List Char × Nat)) (salt hash : List Nat) (v r : Nat),
      node.id = "bcrypt".toList → node.parameters = some ps →
      node.salt = some salt → node.hash = some hash →
      node.version = some v → v ≠ 0 →
      ps.lookup "r".toList = some r →
      (isError (validateBcryptNode node) = false ↔
        (hash.length ≠ 0 ∧
         8 ≤ salt.length ∧ salt.length ≤ 1024 ∧
         (v = 0x61 ∨ v = 0x62) ∧
         4 ≤ r ∧ r ≤ 31))) :=
  ⟨validateScryptConfig_ok_iff, validateBcryptConfig_ok_iff,
    validateScryptNode_ok_iff, validateBcryptNode_ok_iff⟩

/-- C9 witness: the default configurations validate, and concrete
in-range records pass both drivers' decode-time validation. -/
theorem C9_parameter_ranges_witness :
    validateScryptConfig defaultScryptConfig = .ok () ∧
    validateBcryptConfig defaultBcryptConfig = .ok () ∧
    isError (validateScryptNode ⟨"scrypt".toList, none,
      some [("n".toList, 1), ("r".toList, 8), ("p".toList, 1)],
      some (List.replicate 16 0), some (List.replicate 64 0)⟩) = false ∧
    isError (validateBcryptNode ⟨"bcrypt".toList, some 98, some [("r".toList, 10)],
      some (List.replicate 16 0), some [1]⟩) = false := by
  refine ⟨?_, ?_, ?_, ?_⟩
  · exact (C9_parameter_ranges.1 defaultScryptConfig).mpr (by decide)
  · exact (C9_parameter_ranges.2.1 defaultBcryptConfig).mpr (by decide)
  · exact (C9_parameter_ranges.2.2.1 _ [("n".toList, 1), ("r".toList, 8), ("p".toList, 1)]
      (List.replicate 16 0) (List.replicate 64 0) 1 8 1
      rfl rfl rfl rfl rfl rfl rfl).mpr (by decide)
  · exact (C9_parameter_ranges.2.2.2 _ [("r".toList, 10)]
      (List.replicate 16 0) [1] 98 10
      rfl rfl rfl rfl rfl (by decide) rfl).mpr (by decide)

/-- C10: `safeEqual` on two byte sequences of different lengths throws
(`timingSafeEqual`'s `RangeError`) instead of returning false, and it is
the catch-all in each driver's `verify` that turns any such failure into a
false result. -/
theorem C10_safeEqual_bytes_length_mismatch_throws :
    (∀ a b : List Nat, a.length ≠ b.length → isError (safeEqualBytes a b) = true) ∧
    (∀ (kdf : ScryptKdf) (config : ScryptConfig) (hashedValue plainValue : List Char),
      isError (scryptVerifyInner kdf config hashedValue plainValue) = true →
      scryptVerify kdf config hashedValue plainValue = false) ∧
    (∀ (binding : BcryptBinding) (config : BcryptConfig) (hashedValue plainValue : List Char),
      ¬ ("$2b".toList.isPrefixOf hashedValue ∨ "$2a".toList.isPrefixOf hashedValue) →
      isError (bcryptVerifyInner binding hashedValue plainValue) = true →
      bcryptVerify binding config hashedValue plainValue = false) := by
  refine ⟨?_, scryptVerify_false_of_inner_error, bcryptVerify_false_of_inner_error⟩
  intro a b h
  simp [safeEqualBytes, timingSafeEqual, h, isError]

/-- C10 witness: a concrete length mismatch throws, and a concrete failing
inner verification is converted to false. -/
theorem C10_safeEqual_bytes_length_mismatch_throws_witness :
    isError (safeEqualBytes [0] []) = true ∧
    scryptVerify zeroKdf defaultScryptConfig "x".toList "pw".toList = false :=
  ⟨C10_safeEqual_bytes_length_mismatch_throws.1 [0] [] (by decide),
    C10_safeEqual_bytes_length_mismatch_throws.2.1 zeroKdf defaultScryptConfig
      "x".toList "pw".toList (by rfl)⟩
